import Mathlib

/-
Verification development for `src/hand_velocities.rs` of bevy_vr_blocks.

The file shallowly embeds the hand-tracking module: the per-bone merge loop of
`locate_hands_with_vel`, the timestamp selection, the per-hand skip/abort
control flow, `transfer_vels`, and the plugin's per-tick
merge-then-transfer chaining gated on `session_running`.

Scalar components (f32 positions, radii, velocities and i64 nanosecond times)
are carried as exact integers: the code under verification only copies or
zeroes these values. The single arithmetic operation — the nanosecond
addition of the two i64 values returned by `openxr::Time::as_nanos` — is
modelled with two's-complement wrap at the i64 boundary, the release-mode
behaviour of the Rust `+`; within the i64 range it is exact addition.
-/

namespace BevyVrBlocks

/-- Three-component vector: models both `bevy::math::Vec3` and
`openxr::Vector3f`; components are copied, never computed with. -/
structure Vec3 where
  x : Int
  y : Int
  z : Int
deriving DecidableEq

/-- Models `Vec3::ZERO`. -/
def Vec3.ZERO : Vec3 := ⟨0, 0, 0⟩

/-- Quaternion components: models `bevy::math::Quat` and `openxr::Quaternionf`
(x, y, z, w); components are passed through, never renormalized. -/
structure Quat where
  x : Int
  y : Int
  z : Int
  w : Int
deriving DecidableEq

/-- Models `openxr::Posef`. -/
structure Posef where
  orientation : Quat
  position : Vec3
deriving DecidableEq

/-- The two bits of `openxr::SpaceLocationFlags` read by the merge
(`POSITION_VALID` and `ORIENTATION_VALID`). -/
structure SpaceLocationFlags where
  position_valid : Bool
  orientation_valid : Bool
deriving DecidableEq

/-- The two bits of `openxr::SpaceVelocityFlags` read by the merge
(`LINEAR_VALID` and `ANGULAR_VALID`). -/
structure SpaceVelocityFlags where
  linear_valid : Bool
  angular_valid : Bool
deriving DecidableEq

/-- Models `openxr::HandJointLocation`: one joint's pose sample. -/
structure HandJointLocation where
  location_flags : SpaceLocationFlags
  pose : Posef
  radius : Int
deriving DecidableEq

/-- Models `openxr::HandJointVelocity`: one joint's velocity sample. -/
structure HandJointVelocity where
  velocity_flags : SpaceVelocityFlags
  linear_velocity : Vec3
  angular_velocity : Vec3
deriving DecidableEq

/-- Models the `XrVelocity` component defined in `hand_velocities.rs`. -/
structure XrVelocity where
  linear : Vec3
  angular : Vec3
deriving DecidableEq

/-- Models `bevy::transform::components::Transform`; the merge writes only
`translation` and `rotation` component-wise and never touches `scale`. -/
structure Transform where
  translation : Vec3
  rotation : Quat
  scale : Vec3
deriving DecidableEq

/-- Models `bevy_mod_xr::hands::HandBone`: the fixed hand-skeleton
enumeration, in the OpenXR `XR_HAND_JOINT_*` order used by `*bone as usize`. -/
inductive HandBone where
  | Palm
  | Wrist
  | ThumbMetacarpal
  | ThumbProximal
  | ThumbDistal
  | ThumbTip
  | IndexMetacarpal
  | IndexProximal
  | IndexIntermediate
  | IndexDistal
  | IndexTip
  | MiddleMetacarpal
  | MiddleProximal
  | MiddleIntermediate
  | MiddleDistal
  | MiddleTip
  | RingMetacarpal
  | RingProximal
  | RingIntermediate
  | RingDistal
  | RingTip
  | LittleMetacarpal
  | LittleProximal
  | LittleIntermediate
  | LittleDistal
  | LittleTip
deriving DecidableEq

/-- Models the `*bone as usize` cast: the discriminant of the `HandBone`
enum, matching the OpenXR joint indices. -/
def HandBone.toIndex : HandBone → Nat
  | .Palm => 0
  | .Wrist => 1
  | .ThumbMetacarpal => 2
  | .ThumbProximal => 3
  | .ThumbDistal => 4
  | .ThumbTip => 5
  | .IndexMetacarpal => 6
  | .IndexProximal => 7
  | .IndexIntermediate => 8
  | .IndexDistal => 9
  | .IndexTip => 10
  | .MiddleMetacarpal => 11
  | .MiddleProximal => 12
  | .MiddleIntermediate => 13
  | .MiddleDistal => 14
  | .MiddleTip => 15
  | .RingMetacarpal => 16
  | .RingProximal => 17
  | .RingIntermediate => 18
  | .RingDistal => 19
  | .RingTip => 20
  | .LittleMetacarpal => 21
  | .LittleProximal => 22
  | .LittleIntermediate => 23
  | .LittleDistal => 24
  | .LittleTip => 25

/-- Models `openxr::HAND_JOINT_COUNT` (and the length of
`XrHandBoneEntities`' array): 26 joints per hand. -/
def XR_HAND_JOINT_COUNT : Nat := 26

/-- Models the payload of `Ok(Some(v))` from
`locate_hand_joints_with_velocities`: a pair of fixed-length arrays
(`[HandJointLocation; HAND_JOINT_COUNT]`, `[HandJointVelocity; HAND_JOINT_COUNT]`),
one entry per bone of the fixed skeleton. The Rust array types guarantee the
lengths; the embedding carries them as fields. -/
structure HandJoints where
  locations : List HandJointLocation
  velocities : List HandJointVelocity
  locations_length : locations.length = XR_HAND_JOINT_COUNT
  velocities_length : velocities.length = XR_HAND_JOINT_COUNT

/-- Models `joints.0[*bone as usize]`. -/
def jointAt (j : HandJoints) (b : HandBone) : HandJointLocation :=
  j.locations.get ⟨b.toIndex, by rw [j.locations_length]; cases b <;> decide⟩

/-- Models `joints.1[*bone as usize]`. -/
def jointVelAt (j : HandJoints) (b : HandBone) : HandJointVelocity :=
  j.velocities.get ⟨b.toIndex, by rw [j.velocities_length]; cases b <;> decide⟩

/-- Models `bevy_mod_openxr::helper_traits::ToVec3` on `openxr::Vector3f`:
a field-by-field repack into `bevy::math::Vec3`. -/
def to_vec3 (v : Vec3) : Vec3 := ⟨v.x, v.y, v.z⟩

/-- The mutable components one iteration of the merge loop holds for a bone
entity: `HandBoneRadius` (dereferenced), `Transform`, `XrVelocity`. -/
structure BoneMut where
  bone_radius : Int
  transform : Transform
  vel : XrVelocity
deriving DecidableEq

/-- Body of the per-bone merge loop in `locate_hands_with_vel`, statement by
statement: unconditional radius write; velocity writes gated on
`SpaceVelocityFlags` with zeroing on invalid; component-wise translation and
rotation writes gated on `SpaceLocationFlags` with no write on invalid. -/
def mergeBone (joint : HandJointLocation) (joint_vel : HandJointVelocity)
    (s : BoneMut) : BoneMut :=
  let lin : Vec3 :=
    if joint_vel.velocity_flags.linear_valid then
      to_vec3 joint_vel.linear_velocity
    else
      Vec3.ZERO
  let ang : Vec3 :=
    if joint_vel.velocity_flags.angular_valid then
      to_vec3 joint_vel.angular_velocity
    else
      Vec3.ZERO
  let s1 := { s with bone_radius := joint.radius }
  let s2 := { s1 with vel.linear := lin }
  let s3 := { s2 with vel.angular := ang }
  let newTranslation : Vec3 :=
    ⟨joint.pose.position.x, joint.pose.position.y, joint.pose.position.z⟩
  let s4 :=
    if joint.location_flags.position_valid then
      { s3 with transform.translation := newTranslation }
    else s3
  let newRotation : Quat :=
    ⟨joint.pose.orientation.x, joint.pose.orientation.y,
     joint.pose.orientation.z, joint.pose.orientation.w⟩
  let s5 :=
    if joint.location_flags.orientation_valid then
      { s4 with transform.rotation := newRotation }
    else s4
  s5

/-- Models `bevy::ecs::entity::Entity` as a bare identifier. -/
abbrev Entity := Nat

/-- The components of one entity that this module touches. `Option` marks
whether the entity carries the component: `bone` is `HandBone`,
`bone_radius` is `HandBoneRadius`, `vel` is `XrVelocity`, and
`linear_velocity`/`angular_velocity` are avian3d's `LinearVelocity` and
`AngularVelocity` rigid-body components. -/
structure EntityComponents where
  bone : Option HandBone
  bone_radius : Option Int
  transform : Option Transform
  vel : Option XrVelocity
  linear_velocity : Option Vec3
  angular_velocity : Option Vec3
deriving DecidableEq

/-- The mutable ECS state the two systems read and write: an association list
from entity id to its components (each entity appears at most once in a real
world; lookups take the first match). -/
abbrev World := List (Entity × EntityComponents)

/-- Entity lookup in the world. -/
def lookupEnt : World → Entity → Option EntityComponents
  | [], _ => none
  | p :: rest, e => if p.1 = e then some p.2 else lookupEnt rest e

/-- Overwrite the components of an existing entity (no insertion: ECS
mutation through a query only touches entities that exist). -/
def setEnt : World → Entity → EntityComponents → World
  | [], _, _ => []
  | p :: rest, e, c =>
    if p.1 = e then (p.1, c) :: setEnt rest e c else p :: setEnt rest e c

/-- An entity matches `bone_query` iff it has all four of `HandBone`,
`HandBoneRadius`, `Transform` and `XrVelocity`. -/
def hasBoneComponents (c : EntityComponents) : Bool :=
  c.bone.isSome && c.bone_radius.isSome && c.transform.isSome && c.vel.isSome

/-- Whether entity `e` exists in `w` and matches `bone_query`. -/
def hasBoneEnt (w : World) (e : Entity) : Bool :=
  match lookupEnt w e with
  | some c => hasBoneComponents c
  | none => false

/-- Pairwise distinctness of an entity list: `Query::get_many_mut` rejects
aliased (duplicate) entities. -/
def distinctEnts : List Entity → Bool
  | [] => true
  | e :: rest => decide (e ∉ rest) && distinctEnts rest

/-- Success condition of `bone_query.get_many_mut(hand_entities.0)`: every
entity of the array resolves against `bone_query` and no entity repeats. -/
def getManyOk (w : World) (es : List Entity) : Bool :=
  distinctEnts es && es.all (hasBoneEnt w)

/-- One iteration of the merge loop lifted to an entity's component record:
when the entity has the four queried components, run `mergeBone` on them with
the joint sample and velocity selected by the entity's own `HandBone`; the
rigid-body velocity components are untouched. -/
def mergeBoneC (joints : HandJoints) (c : EntityComponents) : EntityComponents :=
  match c.bone, c.bone_radius, c.transform, c.vel with
  | some b, some r, some t, some v =>
    let m := mergeBone (jointAt joints b) (jointVelAt joints b) ⟨r, t, v⟩
    { c with bone_radius := some m.bone_radius, transform := some m.transform,
             vel := some m.vel }
  | _, _, _, _ => c

/-- Apply the merge loop body to one entity of the batch. -/
def mergeEntity (joints : HandJoints) (w : World) (e : Entity) : World :=
  match lookupEnt w e with
  | some c => setEnt w e (mergeBoneC joints c)
  | none => w

/-- The whole merge of one hand's batch: `get_many_mut` on the hand's entity
array, aborting the hand with a `continue` when it fails, then the per-bone
loop over the resolved entities. -/
def mergeHand (joints : HandJoints) (es : List Entity) (w : World) : World :=
  if getManyOk w es then es.foldl (mergeEntity joints) w else w

/-- Outcome of `session.locate_hand_joints_with_velocities`, as matched by
`locate_hands_with_vel`: `Ok(Some(v))`, `Ok(None)`,
`Err(ERROR_EXTENSION_NOT_PRESENT)`, or any other `Err`. -/
inductive LocateResult where
  | ok (joints : HandJoints)
  | noData
  | extensionNotPresent
  | otherError (code : Nat)

/-- One row of `tracker_query`: the tracker's optional per-entity
`XrReferenceSpace` override and its `XrHandBoneEntities` array. Trackers
spawned by this module (see `spawn_custom_hands`) carry no override. -/
structure Tracker where
  refSpace : Option Nat
  handEntities : List Entity

/-- Models `ref_space.map(|v| &v.0).unwrap_or(&default_ref_space.0)`: the
frame a hand's query is issued against is the tracker's own override when
present, else the shared `XrPrimaryReferenceSpace`. -/
def refFrameUsed (defaultRefSpace : Nat) (t : Tracker) : Nat :=
  t.refSpace.getD defaultRefSpace

/-- Smallest `i64` value, -(2^63): lower bound of `openxr::Time`'s nanosecond
representation. -/
def INT64_MIN : Int := -9223372036854775808

/-- Largest `i64` value, 2^63 - 1. -/
def INT64_MAX : Int := 9223372036854775807

/-- Two's-complement wrap of a mathematical integer into the `i64` range
(the second constant is 2^63, the modulus is 2^64): the release-mode result
of a Rust `i64` addition that may overflow. -/
def wrapI64 (n : Int) : Int :=
  (n + 9223372036854775808) % 18446744073709551616 - 9223372036854775808

/-- The timestamp selection inside `locate_hands_with_vel`: with the
`Pipelined` resource present the query time is
`predicted_display_time.as_nanos() + predicted_display_period.as_nanos()`,
an `i64` addition in nanoseconds (wrapping at the i64 boundary), otherwise
it is `predicted_display_time` itself. -/
def queryTime (displayTime displayPeriod : Int) (pipelined : Bool) : Int :=
  if pipelined then wrapI64 (displayTime + displayPeriod) else displayTime

/-- The external tracking source: given the tracker, the reference frame and
the query timestamp, produces this tick's outcome for that hand. -/
abbrev Sampler := Tracker → Nat → Int → LocateResult

/-- Body of the tracker loop of `locate_hands_with_vel` for one hand: query
the source at the selected frame and time; on `Ok(Some(..))` run the merge
(which itself aborts on entity-resolution failure), on `Ok(None)` or either
error arm `continue` without touching the world. -/
def locateOneHand (sampler : Sampler) (defaultRefSpace : Nat)
    (displayTime displayPeriod : Int) (pipelined : Bool)
    (w : World) (t : Tracker) : World :=
  match sampler t (refFrameUsed defaultRefSpace t)
      (queryTime displayTime displayPeriod pipelined) with
  | .ok joints => mergeHand joints t.handEntities w
  | .noData => w
  | .extensionNotPresent => w
  | .otherError _ => w

/-- The `locate_hands_with_vel` system: the tracker loop over all hands,
threading the world through `locateOneHand`. -/
def locate_hands_with_vel (sampler : Sampler) (defaultRefSpace : Nat)
    (displayTime displayPeriod : Int) (pipelined : Bool)
    (trackers : List Tracker) (w : World) : World :=
  trackers.foldl
    (locateOneHand sampler defaultRefSpace displayTime displayPeriod pipelined) w

/-- Per-entity effect of `transfer_vels`: an entity matching its query
(`XrVelocity`, `LinearVelocity`, `AngularVelocity` all present) gets its
rigid-body velocities overwritten from the fused `XrVelocity`; any other
entity is untouched. -/
def transferC (c : EntityComponents) : EntityComponents :=
  match c.vel, c.linear_velocity, c.angular_velocity with
  | some v, some _, some _ =>
    { c with linear_velocity := some v.linear, angular_velocity := some v.angular }
  | _, _, _ => c

/-- The `transfer_vels` system: apply `transferC` to every entity. -/
def transfer_vels (w : World) : World :=
  w.map (fun p => (p.1, transferC p.2))

/-- One `PreUpdate` tick as wired by `CustomHandTrackingPlugin::build`:
`(locate_hands_with_vel, transfer_vels).chain().run_if(session_running)` —
when the session gate is open, the merge runs and the transfer runs strictly
after it on the merged world; when closed, neither system runs. -/
def tick (session_running : Bool) (sampler : Sampler) (defaultRefSpace : Nat)
    (displayTime displayPeriod : Int) (pipelined : Bool)
    (trackers : List Tracker) (w : World) : World :=
  if session_running then
    transfer_vels
      (locate_hands_with_vel sampler defaultRefSpace displayTime displayPeriod
        pipelined trackers w)
  else w

/-- Models the tracker entities spawned by `spawn_custom_hands`: one tracker
per hand, each holding its hand's bone-entity array and no per-tracker
`XrReferenceSpace` override (the spawned bundle contains none). -/
def spawn_custom_hands (left_bones right_bones : List Entity) :
    Tracker × Tracker :=
  ({ refSpace := none, handEntities := left_bones },
   { refSpace := none, handEntities := right_bones })

/-- Concrete joint sample used as an evaluation fixture: position valid,
orientation invalid, radius 2. -/
def wjl : HandJointLocation :=
  ⟨⟨true, false⟩, ⟨⟨1, 2, 3, 4⟩, ⟨5, 6, 7⟩⟩, 2⟩

/-- Concrete joint velocity fixture: linear valid, angular invalid. -/
def wjv : HandJointVelocity := ⟨⟨true, false⟩, ⟨8, 9, 10⟩, ⟨11, 12, 13⟩⟩

/-- Concrete full set of joint samples: the same sample at all 26 joints. -/
def wjoints : HandJoints :=
  ⟨List.replicate 26 wjl, List.replicate 26 wjv, rfl, rfl⟩

/-- Concrete prior transform of a bone entity. -/
def wtransform : Transform :=
  ⟨⟨100, 101, 102⟩, ⟨103, 104, 105, 106⟩, ⟨1, 1, 1⟩⟩

/-- Concrete prior fused velocity of a bone entity. -/
def wvel : XrVelocity := ⟨⟨20, 21, 22⟩, ⟨23, 24, 25⟩⟩

/-- Entity 0's components: a full bone entity with rigid-body velocities. -/
def wc0 : EntityComponents :=
  ⟨some HandBone.Wrist, some 50, some wtransform, some wvel,
   some ⟨30, 31, 32⟩, some ⟨33, 34, 35⟩⟩

/-- Entity 1's components: a second bone entity (a different bone). -/
def wc1 : EntityComponents :=
  ⟨some HandBone.Palm, some 60, some wtransform, some wvel, none, none⟩

/-- One-entity world fixture. -/
def ww0 : World := [(0, wc0)]

/-- Two-entity world fixture. -/
def ww2 : World := [(0, wc0), (1, wc1)]

/-- Tracker fixture whose entity array resolves in `ww0`. -/
def wtracker : Tracker := ⟨none, [0]⟩

/-- Tracker fixture whose entity array does not resolve (entity 3 absent). -/
def wbadTracker : Tracker := ⟨none, [3]⟩

/-- Sampler fixture that always returns a full sample set. -/
def wsamplerOk : Sampler := fun _ _ _ => LocateResult.ok wjoints

/-- Sampler fixture that always reports no data yet. -/
def wsamplerNoData : Sampler := fun _ _ _ => LocateResult.noData

theorem HandBone.toIndex_lt_joint_count (b : HandBone) :
    b.toIndex < XR_HAND_JOINT_COUNT := by
  cases b <;> decide

theorem vec3_fields_pack (v : Vec3) : (⟨v.x, v.y, v.z⟩ : Vec3) = v := by
  cases v; rfl

theorem quat_fields_pack (q : Quat) : (⟨q.x, q.y, q.z, q.w⟩ : Quat) = q := by
  cases q; rfl

theorem to_vec3_id (v : Vec3) : to_vec3 v = v := by
  cases v; rfl

theorem mergeBone_bone_radius (j : HandJointLocation) (jv : HandJointVelocity)
    (s : BoneMut) : (mergeBone j jv s).bone_radius = j.radius := by
  simp only [mergeBone]
  cases hp : j.location_flags.position_valid <;>
    cases ho : j.location_flags.orientation_valid <;> simp [hp, ho]

theorem mergeBone_transform (j : HandJointLocation) (jv : HandJointVelocity)
    (s : BoneMut) :
    (mergeBone j jv s).transform =
      { translation :=
          if j.location_flags.position_valid then j.pose.position
          else s.transform.translation,
        rotation :=
          if j.location_flags.orientation_valid then j.pose.orientation
          else s.transform.rotation,
        scale := s.transform.scale } := by
  simp only [mergeBone]
  cases hp : j.location_flags.position_valid <;>
    cases ho : j.location_flags.orientation_valid <;>
      simp [hp, ho, vec3_fields_pack, quat_fields_pack]

theorem mergeBone_vel (j : HandJointLocation) (jv : HandJointVelocity)
    (s : BoneMut) :
    (mergeBone j jv s).vel =
      { linear :=
          if jv.velocity_flags.linear_valid then jv.linear_velocity
          else Vec3.ZERO,
        angular :=
          if jv.velocity_flags.angular_valid then jv.angular_velocity
          else Vec3.ZERO } := by
  simp only [mergeBone]
  cases hp : j.location_flags.position_valid <;>
    cases ho : j.location_flags.orientation_valid <;>
      cases hl : jv.velocity_flags.linear_valid <;>
        cases ha : jv.velocity_flags.angular_valid <;>
          simp [hp, ho, hl, ha, to_vec3_id]

theorem lookupEnt_setEnt_self (w : World) (e : Entity) (c : EntityComponents) :
    lookupEnt (setEnt w e c) e = (lookupEnt w e).map (fun _ => c) := by
  induction w with
  | nil => rfl
  | cons p rest ih =>
    by_cases h : p.1 = e <;> simp [setEnt, lookupEnt, h, ih]

theorem lookupEnt_setEnt_of_ne (w : World) (e q : Entity)
    (c : EntityComponents) (h : q ≠ e) :
    lookupEnt (setEnt w e c) q = lookupEnt w q := by
  induction w with
  | nil => rfl
  | cons p rest ih =>
    by_cases h1 : p.1 = e
    · have h2 : p.1 ≠ q := by rw [h1]; exact Ne.symm h
      simp [setEnt, lookupEnt, h1, h2, Ne.symm h, ih]
    · by_cases h2 : p.1 = q <;> simp [setEnt, lookupEnt, h1, h2, h, ih]

theorem lookupEnt_mergeEntity_of_ne (joints : HandJoints) (w : World)
    (e q : Entity) (h : q ≠ e) :
    lookupEnt (mergeEntity joints w e) q = lookupEnt w q := by
  unfold mergeEntity
  cases hl : lookupEnt w e with
  | none => rfl
  | some c => exact lookupEnt_setEnt_of_ne w e q _ h

theorem hasBoneEnt_mergeEntity_of_ne (joints : HandJoints) (w : World)
    (e q : Entity) (h : q ≠ e) :
    hasBoneEnt (mergeEntity joints w e) q = hasBoneEnt w q := by
  unfold hasBoneEnt
  rw [lookupEnt_mergeEntity_of_ne joints w e q h]

theorem lookupEnt_fold_not_mem (joints : HandJoints) (es : List Entity)
    (w : World) (e : Entity) (h : e ∉ es) :
    lookupEnt (es.foldl (mergeEntity joints) w) e = lookupEnt w e := by
  induction es generalizing w with
  | nil => rfl
  | cons a rest ih =>
    have hne : e ≠ a := fun hea => h (hea ▸ List.mem_cons_self a rest)
    have hrest : e ∉ rest := fun hm => h (List.mem_cons_of_mem a hm)
    rw [List.foldl_cons, ih _ hrest, lookupEnt_mergeEntity_of_ne _ _ _ _ hne]

theorem lookupEnt_fold_mem (joints : HandJoints) (es : List Entity) (w : World)
    (e : Entity) (hd : distinctEnts es = true)
    (hall : ∀ x ∈ es, hasBoneEnt w x = true) (he : e ∈ es) :
    lookupEnt (es.foldl (mergeEntity joints) w) e =
      (lookupEnt w e).map (mergeBoneC joints) := by
  induction es generalizing w with
  | nil => cases he
  | cons a rest ih =>
    have hd2 : a ∉ rest ∧ distinctEnts rest = true := by
      simpa [distinctEnts, Bool.and_eq_true, decide_eq_true_eq] using hd
    have hba : hasBoneEnt w a = true := hall a (List.mem_cons_self a rest)
    obtain ⟨ca, hca⟩ : ∃ c, lookupEnt w a = some c := by
      unfold hasBoneEnt at hba
      cases hl : lookupEnt w a with
      | none => rw [hl] at hba; cases hba
      | some c => exact ⟨c, rfl⟩
    have hw1 : mergeEntity joints w a = setEnt w a (mergeBoneC joints ca) := by
      unfold mergeEntity; rw [hca]
    rw [List.foldl_cons]
    rcases List.mem_cons.mp he with rfl | hmem
    · rw [lookupEnt_fold_not_mem joints rest _ e hd2.1, hw1,
        lookupEnt_setEnt_self, hca]
      simp
    · have hne : e ≠ a := fun hq => hd2.1 (hq ▸ hmem)
      have hall2 : ∀ x ∈ rest, hasBoneEnt (mergeEntity joints w a) x = true := by
        intro x hx
        have hxa : x ≠ a := fun hq => hd2.1 (hq ▸ hx)
        rw [hasBoneEnt_mergeEntity_of_ne joints w a x hxa]
        exact hall x (List.mem_cons_of_mem a hx)
      rw [ih _ hd2.2 hall2 hmem, lookupEnt_mergeEntity_of_ne joints w a e hne]

theorem getManyOk_unpack (w : World) (es : List Entity)
    (h : getManyOk w es = true) :
    distinctEnts es = true ∧ ∀ x ∈ es, hasBoneEnt w x = true := by
  simpa [getManyOk, Bool.and_eq_true, List.all_eq_true] using h

theorem lookupEnt_mergeHand_mem (joints : HandJoints) (es : List Entity)
    (w : World) (e : Entity) (hok : getManyOk w es = true) (he : e ∈ es) :
    lookupEnt (mergeHand joints es w) e =
      (lookupEnt w e).map (mergeBoneC joints) := by
  have h2 := getManyOk_unpack w es hok
  simp only [mergeHand, hok, if_true]
  exact lookupEnt_fold_mem joints es w e h2.1 h2.2 he

theorem distinctEnts_iff (es : List Entity) :
    distinctEnts es = true ↔ es.Nodup := by
  induction es with
  | nil => simp [distinctEnts]
  | cons a rest ih =>
    simp [distinctEnts, Bool.and_eq_true, decide_eq_true_eq, ih,
      List.nodup_cons]

theorem getManyOk_perm (w : World) (es es2 : List Entity)
    (hp : es2.Perm es) (h : getManyOk w es = true) :
    getManyOk w es2 = true := by
  obtain ⟨hd, hall⟩ := getManyOk_unpack w es h
  simp only [getManyOk, Bool.and_eq_true, List.all_eq_true]
  constructor
  · exact (distinctEnts_iff es2).mpr (hp.nodup_iff.mpr ((distinctEnts_iff es).mp hd))
  · intro x hx
    exact hall x (hp.mem_iff.mp hx)

theorem lookupEnt_transfer_vels (w : World) (e : Entity) :
    lookupEnt (transfer_vels w) e = (lookupEnt w e).map transferC := by
  induction w with
  | nil => rfl
  | cons p rest ih =>
    simp only [transfer_vels, List.map_cons] at *
    by_cases h : p.1 = e <;> simp [lookupEnt, h, ih]

theorem mergeBoneC_eq (joints : HandJoints) (c : EntityComponents)
    (b : HandBone) (r : Int) (t : Transform) (v : XrVelocity)
    (hb : c.bone = some b) (hr : c.bone_radius = some r)
    (ht : c.transform = some t) (hv : c.vel = some v) :
    mergeBoneC joints c =
      { c with
        bone_radius :=
          some (mergeBone (jointAt joints b) (jointVelAt joints b) ⟨r, t, v⟩).bone_radius,
        transform :=
          some (mergeBone (jointAt joints b) (jointVelAt joints b) ⟨r, t, v⟩).transform,
        vel :=
          some (mergeBone (jointAt joints b) (jointVelAt joints b) ⟨r, t, v⟩).vel } := by
  simp [mergeBoneC, hb, hr, ht, hv]

/-- Shared batch characterization: when the sampler returns a sample set and
the hand's entity array resolves, each entity of the batch ends the merge
with exactly `mergeBoneC joints` applied to its previous components. -/
theorem locateOneHand_char (sampler : Sampler) (d : Nat) (T P : Int)
    (pip : Bool) (t : Tracker) (joints : HandJoints) (w : World) (e : Entity)
    (c : EntityComponents)
    (hs : sampler t (refFrameUsed d t) (queryTime T P pip) =
      LocateResult.ok joints)
    (hok : getManyOk w t.handEntities = true)
    (he : e ∈ t.handEntities)
    (hc : lookupEnt w e = some c) :
    lookupEnt (locateOneHand sampler d T P pip w t) e =
      some (mergeBoneC joints c) := by
  simp only [locateOneHand, hs]
  rw [lookupEnt_mergeHand_mem joints t.handEntities w e hok he, hc]
  rfl

/-- C1: for every bone in a merged hand batch, an unset position-valid flag
in that bone's joint sample leaves the bone's translation exactly as it was
before the merge, and an unset orientation-valid flag likewise leaves its
rotation unchanged (preserved, not zeroed); a set flag overwrites the
corresponding field with the sample value. -/
theorem merge_preserves_invalid_pose_fields
    (sampler : Sampler) (d : Nat) (T P : Int) (pip : Bool) (tr : Tracker)
    (joints : HandJoints) (w : World) (e : Entity) (c : EntityComponents)
    (b : HandBone) (r : Int) (t0 : Transform) (v : XrVelocity)
    (hs : sampler tr (refFrameUsed d tr) (queryTime T P pip) =
      LocateResult.ok joints)
    (hok : getManyOk w tr.handEntities = true)
    (he : e ∈ tr.handEntities)
    (hc : lookupEnt w e = some c)
    (hb : c.bone = some b) (hr : c.bone_radius = some r)
    (ht : c.transform = some t0) (hv : c.vel = some v) :
    lookupEnt (locateOneHand sampler d T P pip w tr) e =
      some (mergeBoneC joints c) ∧
    (mergeBoneC joints c).transform = some
      { translation :=
          if (jointAt joints b).location_flags.position_valid then
            (jointAt joints b).pose.position
          else t0.translation,
        rotation :=
          if (jointAt joints b).location_flags.orientation_valid then
            (jointAt joints b).pose.orientation
          else t0.rotation,
        scale := t0.scale } := by
  refine ⟨locateOneHand_char sampler d T P pip tr joints w e c hs hok he hc, ?_⟩
  rw [mergeBoneC_eq joints c b r t0 v hb hr ht hv]
  simp [mergeBone_transform]

theorem merge_preserves_invalid_pose_fields_witness :
    lookupEnt (locateOneHand wsamplerOk 0 0 0 false ww0 wtracker) 0 =
      some (mergeBoneC wjoints wc0) ∧
    (mergeBoneC wjoints wc0).transform = some
      { translation :=
          if (jointAt wjoints HandBone.Wrist).location_flags.position_valid then
            (jointAt wjoints HandBone.Wrist).pose.position
          else wtransform.translation,
        rotation :=
          if (jointAt wjoints HandBone.Wrist).location_flags.orientation_valid then
            (jointAt wjoints HandBone.Wrist).pose.orientation
          else wtransform.rotation,
        scale := wtransform.scale } :=
  merge_preserves_invalid_pose_fields wsamplerOk 0 0 0 false wtracker wjoints
    ww0 0 wc0 HandBone.Wrist 50 wtransform wvel rfl (by decide) (by decide)
    rfl rfl rfl rfl rfl

/-- C2: for every bone in a merged hand batch, an unset linear-velocity-valid
flag sets the fused linear velocity to exactly the zero vector regardless of
its prior value, an unset angular-velocity-valid flag likewise zeroes the
fused angular velocity, and a set flag copies the corresponding sample
velocity. -/
theorem merge_zeroes_invalid_velocities
    (sampler : Sampler) (d : Nat) (T P : Int) (pip : Bool) (tr : Tracker)
    (joints : HandJoints) (w : World) (e : Entity) (c : EntityComponents)
    (b : HandBone) (r : Int) (t0 : Transform) (v : XrVelocity)
    (hs : sampler tr (refFrameUsed d tr) (queryTime T P pip) =
      LocateResult.ok joints)
    (hok : getManyOk w tr.handEntities = true)
    (he : e ∈ tr.handEntities)
    (hc : lookupEnt w e = some c)
    (hb : c.bone = some b) (hr : c.bone_radius = some r)
    (ht : c.transform = some t0) (hv : c.vel = some v) :
    lookupEnt (locateOneHand sampler d T P pip w tr) e =
      some (mergeBoneC joints c) ∧
    (mergeBoneC joints c).vel = some
      { linear :=
          if (jointVelAt joints b).velocity_flags.linear_valid then
            (jointVelAt joints b).linear_velocity
          else Vec3.ZERO,
        angular :=
          if (jointVelAt joints b).velocity_flags.angular_valid then
            (jointVelAt joints b).angular_velocity
          else Vec3.ZERO } := by
  refine ⟨locateOneHand_char sampler d T P pip tr joints w e c hs hok he hc, ?_⟩
  rw [mergeBoneC_eq joints c b r t0 v hb hr ht hv]
  simp [mergeBone_vel]

theorem merge_zeroes_invalid_velocities_witness :
    lookupEnt (locateOneHand wsamplerOk 0 0 0 false ww0 wtracker) 0 =
      some (mergeBoneC wjoints wc0) ∧
    (mergeBoneC wjoints wc0).vel = some
      { linear :=
          if (jointVelAt wjoints HandBone.Wrist).velocity_flags.linear_valid then
            (jointVelAt wjoints HandBone.Wrist).linear_velocity
          else Vec3.ZERO,
        angular :=
          if (jointVelAt wjoints HandBone.Wrist).velocity_flags.angular_valid then
            (jointVelAt wjoints HandBone.Wrist).angular_velocity
          else Vec3.ZERO } :=
  merge_zeroes_invalid_velocities wsamplerOk 0 0 0 false wtracker wjoints
    ww0 0 wc0 HandBone.Wrist 50 wtransform wvel rfl (by decide) (by decide)
    rfl rfl rfl rfl rfl

/-- C3: for every bone in a merged hand batch, the bone radius is
unconditionally overwritten with its joint sample's radius whenever the
sampler returns a sample set, independent of all four validity flags (the
sample, and hence its flags, are universally quantified here). -/
theorem merge_always_overwrites_radius
    (sampler : Sampler) (d : Nat) (T P : Int) (pip : Bool) (tr : Tracker)
    (joints : HandJoints) (w : World) (e : Entity) (c : EntityComponents)
    (b : HandBone) (r : Int) (t0 : Transform) (v : XrVelocity)
    (hs : sampler tr (refFrameUsed d tr) (queryTime T P pip) =
      LocateResult.ok joints)
    (hok : getManyOk w tr.handEntities = true)
    (he : e ∈ tr.handEntities)
    (hc : lookupEnt w e = some c)
    (hb : c.bone = some b) (hr : c.bone_radius = some r)
    (ht : c.transform = some t0) (hv : c.vel = some v) :
    lookupEnt (locateOneHand sampler d T P pip w tr) e =
      some (mergeBoneC joints c) ∧
    (mergeBoneC joints c).bone_radius = some (jointAt joints b).radius := by
  refine ⟨locateOneHand_char sampler d T P pip tr joints w e c hs hok he hc, ?_⟩
  rw [mergeBoneC_eq joints c b r t0 v hb hr ht hv]
  simp [mergeBone_bone_radius]

theorem merge_always_overwrites_radius_witness :
    lookupEnt (locateOneHand wsamplerOk 0 0 0 false ww0 wtracker) 0 =
      some (mergeBoneC wjoints wc0) ∧
    (mergeBoneC wjoints wc0).bone_radius =
      some (jointAt wjoints HandBone.Wrist).radius :=
  merge_always_overwrites_radius wsamplerOk 0 0 0 false wtracker wjoints
    ww0 0 wc0 HandBone.Wrist 50 wtransform wvel rfl (by decide) (by decide)
    rfl rfl rfl rfl rfl

/-- C4 counterexample: the claim's universal exactness fails at the i64
boundary — at the concrete inputs T = i64::MAX nanoseconds and P = 1
nanosecond with pipelined mode on, the program's wrapping i64 addition does
not return T + P. -/
theorem query_timestamp_overflow_counterexample :
    queryTime INT64_MAX 1 true ≠ INT64_MAX + 1 := by
  decide

/-- C4 (amended): the query-timestamp selection is a pure function of the
predicted display time, the predicted display period and the pipelined flag:
it returns exactly T with pipelined mode off for every T and P, and exactly
T + P (nanosecond-exact integer addition, no rounding) with pipelined mode
on whenever the sum T + P lies within the i64 range of `openxr::Time`
(outside that range the i64 addition wraps). -/
theorem query_timestamp_selection_amended (T P : Int)
    (hlo : INT64_MIN ≤ T + P) (hhi : T + P ≤ INT64_MAX) :
    queryTime T P false = T ∧ queryTime T P true = T + P := by
  refine ⟨rfl, ?_⟩
  show wrapI64 (T + P) = T + P
  unfold wrapI64
  unfold INT64_MIN at hlo
  unfold INT64_MAX at hhi
  omega

theorem query_timestamp_selection_amended_witness :
    queryTime 1000000000 16000000 false = 1000000000 ∧
    queryTime 1000000000 16000000 true = 1000000000 + 16000000 :=
  query_timestamp_selection_amended 1000000000 16000000 (by decide) (by decide)

/-- C5: when entity lookup for a hand's bone-entity array fails, the merge of
that hand's whole batch is aborted atomically — the world is left exactly
unchanged by that hand's step, so no bone of that hand and no bone of the
other hand is modified by the failure in the same tick. -/
theorem merge_aborts_atomically_on_entity_lookup_failure
    (sampler : Sampler) (d : Nat) (T P : Int) (pip : Bool)
    (A B : Tracker) (w : World)
    (h : getManyOk w A.handEntities = false) :
    locateOneHand sampler d T P pip w A = w ∧
    locate_hands_with_vel sampler d T P pip [A, B] w =
      locate_hands_with_vel sampler d T P pip [B] w := by
  have h1 : locateOneHand sampler d T P pip w A = w := by
    unfold locateOneHand
    cases hq : sampler A (refFrameUsed d A) (queryTime T P pip) with
    | ok joints => simp [mergeHand, h]
    | noData => rfl
    | extensionNotPresent => rfl
    | otherError code => rfl
  refine ⟨h1, ?_⟩
  simp [locate_hands_with_vel, h1]

theorem merge_aborts_atomically_on_entity_lookup_failure_witness :
    locateOneHand wsamplerOk 0 0 0 false ww0 wbadTracker = ww0 ∧
    locate_hands_with_vel wsamplerOk 0 0 0 false [wbadTracker, wtracker] ww0 =
      locate_hands_with_vel wsamplerOk 0 0 0 false [wtracker] ww0 :=
  merge_aborts_atomically_on_entity_lookup_failure wsamplerOk 0 0 0 false
    wbadTracker wtracker ww0 (by decide)

/-- C6: when the joint query for a hand returns no data yet, the merge for
that hand is skipped entirely and the world is unchanged by that hand's
step; the same skip-without-mutation holds for the capability-unavailable
and transient-failure outcomes (both are ordinary, non-fatal values of the
total step function). -/
theorem merge_skipped_on_no_data_or_query_failure
    (sampler : Sampler) (d : Nat) (T P : Int) (pip : Bool) (tr : Tracker)
    (w : World)
    (h : sampler tr (refFrameUsed d tr) (queryTime T P pip) =
           LocateResult.noData ∨
         sampler tr (refFrameUsed d tr) (queryTime T P pip) =
           LocateResult.extensionNotPresent ∨
         ∃ code, sampler tr (refFrameUsed d tr) (queryTime T P pip) =
           LocateResult.otherError code) :
    locateOneHand sampler d T P pip w tr = w := by
  unfold locateOneHand
  rcases h with h | h | ⟨code, h⟩ <;> rw [h]

theorem merge_skipped_on_no_data_or_query_failure_witness :
    locateOneHand wsamplerNoData 0 0 0 false ww0 wtracker = ww0 :=
  merge_skipped_on_no_data_or_query_failure wsamplerNoData 0 0 0 false
    wtracker ww0 (Or.inl rfl)

/-- C7: within a tick whose session gate is open, the velocity transfer runs
strictly after the merge: whatever fused velocity value a bone entity holds
at the end of the merge stage (new or stale), its rigid-body linear and
angular velocity fields equal exactly that value by the end of the same
tick. -/
theorem transfer_after_merge_same_tick
    (sampler : Sampler) (d : Nat) (T P : Int) (pip : Bool)
    (trackers : List Tracker) (w : World) (e : Entity)
    (c : EntityComponents) (v : XrVelocity) (lv av : Vec3)
    (hc : lookupEnt (locate_hands_with_vel sampler d T P pip trackers w) e =
      some c)
    (hv : c.vel = some v) (hl : c.linear_velocity = some lv)
    (ha : c.angular_velocity = some av) :
    lookupEnt (tick true sampler d T P pip trackers w) e =
      some { c with linear_velocity := some v.linear,
                    angular_velocity := some v.angular } := by
  simp only [tick, if_true]
  rw [lookupEnt_transfer_vels, hc]
  simp [transferC, hv, hl, ha]

theorem transfer_after_merge_same_tick_witness :
    lookupEnt (tick true wsamplerOk 0 0 0 false [] ww0) 0 =
      some { wc0 with linear_velocity := some wvel.linear,
                      angular_velocity := some wvel.angular } :=
  transfer_after_merge_same_tick wsamplerOk 0 0 0 false [] ww0 0 wc0 wvel
    ⟨30, 31, 32⟩ ⟨33, 34, 35⟩ rfl rfl rfl rfl

/-- C8: within a tick, the two trackers spawned by `spawn_custom_hands`
carry no per-tracker reference-space override, so both hands' joint queries
are issued against one identical reference frame — the shared primary
reference space, which the locate pass only reads. -/
theorem shared_reference_frame_for_both_hands
    (d : Nat) (left_bones right_bones : List Entity) :
    refFrameUsed d (spawn_custom_hands left_bones right_bones).1 =
      refFrameUsed d (spawn_custom_hands left_bones right_bones).2 ∧
    refFrameUsed d (spawn_custom_hands left_bones right_bones).1 = d := by
  exact ⟨rfl, rfl⟩

/-- C9: for every bone of the fixed hand-skeleton enumeration, the `as usize`
conversion of its identifier is strictly within the bounds of both the
joint-sample and the joint-velocity arrays returned by a successful query,
so the per-bone lookups in the merge never index out of bounds. -/
theorem bone_index_within_joint_array_bounds (j : HandJoints) (b : HandBone) :
    b.toIndex < j.locations.length ∧ b.toIndex < j.velocities.length := by
  rw [j.locations_length, j.velocities_length]
  exact ⟨HandBone.toIndex_lt_joint_count b, HandBone.toIndex_lt_joint_count b⟩

/-- C10: the joint sample merged into a bone entity is selected by the
entity's own bone identifier, not by its position in the hand's entity
array: merging with any permutation of the entity array gives each entity
exactly the sample and velocity of its own named joint. -/
theorem merge_selects_sample_by_bone_id_not_array_order
    (joints : HandJoints) (es es2 : List Entity) (w : World) (e : Entity)
    (c : EntityComponents) (b : HandBone) (r : Int) (t0 : Transform)
    (v : XrVelocity)
    (hperm : es2.Perm es)
    (hok : getManyOk w es = true)
    (he : e ∈ es)
    (hc : lookupEnt w e = some c)
    (hb : c.bone = some b) (hr : c.bone_radius = some r)
    (ht : c.transform = some t0) (hv : c.vel = some v) :
    lookupEnt (mergeHand joints es2 w) e =
      some { c with
        bone_radius :=
          some (mergeBone (jointAt joints b) (jointVelAt joints b)
            ⟨r, t0, v⟩).bone_radius,
        transform :=
          some (mergeBone (jointAt joints b) (jointVelAt joints b)
            ⟨r, t0, v⟩).transform,
        vel :=
          some (mergeBone (jointAt joints b) (jointVelAt joints b)
            ⟨r, t0, v⟩).vel } := by
  have hok2 : getManyOk w es2 = true := getManyOk_perm w es es2 hperm hok
  have he2 : e ∈ es2 := hperm.mem_iff.mpr he
  rw [lookupEnt_mergeHand_mem joints es2 w e hok2 he2, hc]
  simp [mergeBoneC_eq joints c b r t0 v hb hr ht hv]

theorem merge_selects_sample_by_bone_id_not_array_order_witness :
    lookupEnt (mergeHand wjoints [1, 0] ww2) 0 =
      some { wc0 with
        bone_radius :=
          some (mergeBone (jointAt wjoints HandBone.Wrist)
            (jointVelAt wjoints HandBone.Wrist)
            ⟨50, wtransform, wvel⟩).bone_radius,
        transform :=
          some (mergeBone (jointAt wjoints HandBone.Wrist)
            (jointVelAt wjoints HandBone.Wrist)
            ⟨50, wtransform, wvel⟩).transform,
        vel :=
          some (mergeBone (jointAt wjoints HandBone.Wrist)
            (jointVelAt wjoints HandBone.Wrist)
            ⟨50, wtransform, wvel⟩).vel } :=
  merge_selects_sample_by_bone_id_not_array_order wjoints [0, 1] [1, 0] ww2 0
    wc0 HandBone.Wrist 50 wtransform wvel (by decide) (by decide) (by decide)
    rfl rfl rfl rfl rfl

end BevyVrBlocks
